import Mathlib

/-!
Verification of the call-tree summarization layer and the batcher client
boundary of the sequencer repository.

The call-record data model and the `summarize` fold are modelled from the
specification (the repository ships only the test file
`crates/blockifier/src/transaction/objects_test.rs` for this part); the
batcher client types follow `crates/batcher_types/src/communication.rs`.
-/

namespace Sequencer

/-- Modelled from the spec: an emitted event, carrying a local `order` index,
a key list and a data payload (field elements modelled as `Nat`).
The concrete event type (`OrderedEvent`) is not under the provided sources. -/
structure OrderedEvent where
  order : Nat
  keys : List Nat
  data : List Nat
deriving Repr, DecidableEq

/-- Modelled from the spec: an outbound L2-to-L1 message body with a
destination address and a payload (sequence of field elements). -/
structure MessageToL1 where
  to_address : Nat
  payload : List Nat
deriving Repr, DecidableEq

/-- Modelled from the spec: an outbound message together with its local
`order` index, as recorded by the execution engine. -/
structure OrderedL2ToL1Message where
  order : Nat
  message : MessageToL1
deriving Repr, DecidableEq

/-- Modelled from the spec: one Call Record (the recursive `CallInfo`):
optional class hash, storage address, ordered events, ordered outbound
messages, the set of accessed storage keys (kept as the engine hands it
over; deduplication is the summary's concern), and the ordered children. -/
inductive CallInfo : Type where
  | mk (class_hash : Option Nat) (storage_address : Nat)
      (events : List OrderedEvent)
      (l2_to_l1_messages : List OrderedL2ToL1Message)
      (accessed_storage_keys : List Nat)
      (inner_calls : List CallInfo) : CallInfo

/-- Field accessor for the optional class hash of a call record. -/
def CallInfo.class_hash : CallInfo → Option Nat
  | .mk ch _ _ _ _ _ => ch

/-- Field accessor for the storage address of a call record. -/
def CallInfo.storage_address : CallInfo → Nat
  | .mk _ sa _ _ _ _ => sa

/-- Field accessor for the ordered events of a call record. -/
def CallInfo.events : CallInfo → List OrderedEvent
  | .mk _ _ evs _ _ _ => evs

/-- Field accessor for the ordered outbound messages of a call record. -/
def CallInfo.l2_to_l1_messages : CallInfo → List OrderedL2ToL1Message
  | .mk _ _ _ msgs _ _ => msgs

/-- Field accessor for the accessed storage keys of a call record. -/
def CallInfo.accessed_storage_keys : CallInfo → List Nat
  | .mk _ _ _ _ keys _ => keys

/-- Field accessor for the ordered children of a call record. -/
def CallInfo.inner_calls : CallInfo → List CallInfo
  | .mk _ _ _ _ _ inner => inner

/-- Aggregate event counts of an execution summary: total event count, total
event-key count and total event-data size. -/
@[ext]
structure EventSummary where
  n_events : Nat
  total_event_keys : Nat
  total_event_data_size : Nat
deriving Repr, DecidableEq

/-- Modelled from the spec: the `ExecutionSummary` value type produced by the
fold — deduplicated sets of class hashes and of `(storage_address, key)`
pairs, the ordered payload-length sequence, and the event aggregates. -/
@[ext]
structure ExecutionSummary where
  executed_class_hashes : Finset Nat
  visited_storage_entries : Finset (Nat × Nat)
  l2_to_l1_payload_lengths : List Nat
  event_summary : EventSummary
deriving DecidableEq

/-- The empty execution summary: zero counts, empty sets, empty sequence. -/
def ExecutionSummary.empty : ExecutionSummary :=
  { executed_class_hashes := ∅
    visited_storage_entries := ∅
    l2_to_l1_payload_lengths := []
    event_summary := { n_events := 0, total_event_keys := 0, total_event_data_size := 0 } }

mutual

/-- Modelled from the spec: the per-node aggregation step of the Summarizer
(§4.2) applied to one call record on top of an accumulator — insert the class
hash when present, insert every `(storage_address, key)` pair, add the event
count and per-event key and data sizes, append each message's payload length
in listed order, then recurse into the children in order. -/
def summarizeCall (acc : ExecutionSummary) : CallInfo → ExecutionSummary
  | .mk ch sa evs msgs keys inner =>
    summarizeCalls
      { executed_class_hashes :=
          match ch with
          | some h => insert h acc.executed_class_hashes
          | none => acc.executed_class_hashes
        visited_storage_entries :=
          keys.foldl (fun s k => insert (sa, k) s) acc.visited_storage_entries
        l2_to_l1_payload_lengths :=
          acc.l2_to_l1_payload_lengths ++ msgs.map (fun m => m.message.payload.length)
        event_summary :=
          { n_events := acc.event_summary.n_events + evs.length
            total_event_keys :=
              acc.event_summary.total_event_keys + (evs.map (fun e => e.keys.length)).sum
            total_event_data_size :=
              acc.event_summary.total_event_data_size + (evs.map (fun e => e.data.length)).sum } }
      inner

/-- Fold `summarizeCall` over a list of call records, left to right. -/
def summarizeCalls (acc : ExecutionSummary) : List CallInfo → ExecutionSummary
  | [] => acc
  | c :: rest => summarizeCalls (summarizeCall acc c) rest

end

/-- Modelled from the spec: the `TransactionExecutionInfo` record holding the
three optional phase trees plus transaction-level metadata the spec leaves
abstract (modelled as a `Nat`). -/
structure TransactionExecutionInfo where
  validate_call_info : Option CallInfo
  execute_call_info : Option CallInfo
  fee_transfer_call_info : Option CallInfo
  metadata : Nat

/-- The present phase trees in the fixed order validate, execute,
fee-transfer; absent trees are dropped. -/
def TransactionExecutionInfo.non_optional_call_infos
    (t : TransactionExecutionInfo) : List CallInfo :=
  [t.validate_call_info, t.execute_call_info, t.fee_transfer_call_info].filterMap id

/-- Modelled from the spec: `summarize` folds the present trees, in the fixed
order validate, execute, fee-transfer, into one execution summary starting
from the empty summary. -/
def TransactionExecutionInfo.summarize (t : TransactionExecutionInfo) : ExecutionSummary :=
  summarizeCalls ExecutionSummary.empty t.non_optional_call_infos

mutual

/-- All nodes of a call tree in depth-first pre-order: the node itself first,
then the nodes of each child subtree, children taken in their listed order. -/
def CallInfo.allNodes : CallInfo → List CallInfo
  | .mk ch sa evs msgs keys inner =>
    .mk ch sa evs msgs keys inner :: allNodesList inner

/-- Pre-order node lists of a list of call trees, concatenated in order. -/
def allNodesList : List CallInfo → List CallInfo
  | [] => []
  | c :: rest => c.allNodes ++ allNodesList rest

end

/-- Class hashes occurring on a node list, in order, absent ones skipped. -/
def classHashesOf (ns : List CallInfo) : List Nat :=
  ns.filterMap CallInfo.class_hash

/-- The `(storage_address, storage_key)` pairs of a node list, in order. -/
def storageEntriesOf (ns : List CallInfo) : List (Nat × Nat) :=
  ns.flatMap (fun n => n.accessed_storage_keys.map (fun k => (n.storage_address, k)))

/-- Payload lengths of the outbound messages of a node list, in order:
per node, its own messages in listed order. -/
def payloadLengthsOf (ns : List CallInfo) : List Nat :=
  ns.flatMap (fun n => n.l2_to_l1_messages.map (fun m => m.message.payload.length))

/-- Total number of outbound messages over a node list. -/
def nMessagesOf (ns : List CallInfo) : Nat :=
  (ns.map (fun n => n.l2_to_l1_messages.length)).sum

/-- Total number of events over a node list, each node contributing its own
event count. -/
def nEventsOf (ns : List CallInfo) : Nat :=
  (ns.map (fun n => n.events.length)).sum

/-- Total event-key count over a node list: the sum of every event's number
of keys. -/
def totalKeysOf (ns : List CallInfo) : Nat :=
  (ns.flatMap (fun n => n.events.map (fun e => e.keys.length))).sum

/-- Total event-data size over a node list: the sum of every event's data
payload length. -/
def totalDataOf (ns : List CallInfo) : Nat :=
  (ns.flatMap (fun n => n.events.map (fun e => e.data.length))).sum

/-- Extending an execution summary by the contribution of a node list: sets
grow by union, the payload-length sequence by appending, counts by adding. -/
def accumulate (acc : ExecutionSummary) (ns : List CallInfo) : ExecutionSummary :=
  { executed_class_hashes := acc.executed_class_hashes ∪ (classHashesOf ns).toFinset
    visited_storage_entries := acc.visited_storage_entries ∪ (storageEntriesOf ns).toFinset
    l2_to_l1_payload_lengths := acc.l2_to_l1_payload_lengths ++ payloadLengthsOf ns
    event_summary :=
      { n_events := acc.event_summary.n_events + nEventsOf ns
        total_event_keys := acc.event_summary.total_event_keys + totalKeysOf ns
        total_event_data_size := acc.event_summary.total_event_data_size + totalDataOf ns } }

/-- Pre-order node list of an optional tree; an absent tree has no nodes. -/
def optNodes : Option CallInfo → List CallInfo
  | none => []
  | some c => c.allNodes

/-- All nodes of a transaction execution info, in the fixed traversal order:
validate tree, then execute tree, then fee-transfer tree. -/
def TransactionExecutionInfo.allNodes (t : TransactionExecutionInfo) : List CallInfo :=
  optNodes t.validate_call_info ++ optNodes t.execute_call_info ++
    optNodes t.fee_transfer_call_info

/-- Summarizing a transaction execution info modelled as a call on the held
record: the result together with the record after the call, which a pure
method leaves unchanged. -/
def TransactionExecutionInfo.summarizeCalled (t : TransactionExecutionInfo) :
    ExecutionSummary × TransactionExecutionInfo :=
  (t.summarize, t)

/-- Modelled from the spec: input of the build-proposal operation (opaque at
this boundary; `BuildProposalInput` is not under the provided sources). -/
structure BuildProposalInput where
  proposal_id : Nat
deriving Repr, DecidableEq

/-- Modelled from the spec: input of the fetch-streamed-content operation. -/
structure GetStreamContentInput where
  stream_id : Nat
deriving Repr, DecidableEq

/-- Modelled from the spec: input of the decision-reached notification. -/
structure DecisionReachedInput where
  block_id : Nat
deriving Repr, DecidableEq

/-- Modelled from the spec: one piece of streamed proposal content. -/
structure StreamContent where
  content : Nat
deriving Repr, DecidableEq

/-- Modelled from the spec: the domain-level failure an operation itself
reports (`BatcherError` of `crate::errors`, not under the provided sources). -/
inductive BatcherError where
  | internal (code : Nat)
deriving Repr, DecidableEq

/-- Modelled from the spec: the transport-level failure of the client-server
path (`ClientError` of the component-client infra): connection failure,
serialization failure, or timeout. -/
inductive ClientError where
  | connectionFailure
  | serializationFailure
  | timeout
deriving Repr, DecidableEq

/-- Result of a batcher operation as reported by the batcher itself. -/
abbrev BatcherResult (α : Type) : Type := Except BatcherError α

/-- Request enum of the batcher client, one variant per operation
(`communication.rs`). -/
inductive BatcherRequest where
  | BuildProposal (input : BuildProposalInput)
  | GetStreamContent (input : GetStreamContentInput)
  | DecisionReached (input : DecisionReachedInput)
deriving Repr, DecidableEq

/-- Response enum of the batcher client, one variant per operation, each
carrying that operation's own result (`communication.rs`). -/
inductive BatcherResponse where
  | BuildProposal (result : BatcherResult Unit)
  | GetStreamContent (result : BatcherResult StreamContent)
  | DecisionReached (result : BatcherResult Unit)

/-- The unified client error (`communication.rs`): either a transport-level
`ClientError` or a domain-level `BatcherError`, as distinct variants. -/
inductive BatcherClientError where
  | ClientError (e : ClientError)
  | BatcherError (e : BatcherError)
deriving Repr, DecidableEq

/-- Result type of every batcher client operation (`communication.rs`). -/
abbrev BatcherClientResult (α : Type) : Type := Except BatcherClientError α

/-- Modelled from the spec: the batcher component's own behaviour — for each
operation, the result that operation itself reports. -/
structure BatcherBehavior where
  build_proposal : BuildProposalInput → BatcherResult Unit
  get_stream_content : GetStreamContentInput → BatcherResult StreamContent
  decision_reached : DecisionReachedInput → BatcherResult Unit

/-- Modelled from the spec: the local component client's send — an in-process
direct call on the component; it cannot fail and returns the component's
response to the request, in the matching variant. -/
def localSend (srv : BatcherBehavior) : BatcherRequest → BatcherResponse
  | .BuildProposal i => .BuildProposal (srv.build_proposal i)
  | .GetStreamContent i => .GetStreamContent (srv.get_stream_content i)
  | .DecisionReached i => .DecisionReached (srv.decision_reached i)

/-- Modelled from the spec: the network leg of the remote client — for each
request, either a transport failure or successful delivery. -/
structure RemoteTransport where
  outcome : BatcherRequest → Option ClientError

/-- Modelled from the spec: the remote component client's send — the request
is serialized, sent and the response deserialized; it is fallible and yields
a transport `ClientError` when the round trip fails. -/
def remoteSend (srv : BatcherBehavior) (tr : RemoteTransport)
    (req : BatcherRequest) : Except ClientError BatcherResponse :=
  match tr.outcome req with
  | some e => .error e
  | none => .ok (localSend srv req)

/-- Modelled from the spec: response handling for BuildProposal
(`handle_response_variants!`): the matching variant's own error becomes the
domain variant of the unified error; a response of the wrong variant is a
failure of the client-server path, reported as a transport error. -/
def handleBuildProposal : BatcherResponse → BatcherClientResult Unit
  | .BuildProposal (.ok u) => .ok u
  | .BuildProposal (.error e) => .error (.BatcherError e)
  | _ => .error (.ClientError .serializationFailure)

/-- Modelled from the spec: response handling for GetStreamContent. -/
def handleGetStreamContent : BatcherResponse → BatcherClientResult StreamContent
  | .GetStreamContent (.ok c) => .ok c
  | .GetStreamContent (.error e) => .error (.BatcherError e)
  | _ => .error (.ClientError .serializationFailure)

/-- Modelled from the spec: response handling for DecisionReached. -/
def handleDecisionReached : BatcherResponse → BatcherClientResult Unit
  | .DecisionReached (.ok u) => .ok u
  | .DecisionReached (.error e) => .error (.BatcherError e)
  | _ => .error (.ClientError .serializationFailure)

/-- Local client build_proposal (`communication.rs`, local impl): send the
request with the infallible in-process send, then handle the response. -/
def LocalBatcherClientImpl.build_proposal (srv : BatcherBehavior)
    (input : BuildProposalInput) : BatcherClientResult Unit :=
  handleBuildProposal (localSend srv (BatcherRequest.BuildProposal input))

/-- Local client get_stream_content (`communication.rs`, local impl). -/
def LocalBatcherClientImpl.get_stream_content (srv : BatcherBehavior)
    (input : GetStreamContentInput) : BatcherClientResult StreamContent :=
  handleGetStreamContent (localSend srv (BatcherRequest.GetStreamContent input))

/-- Local client decision_reached (`communication.rs`, local impl). -/
def LocalBatcherClientImpl.decision_reached (srv : BatcherBehavior)
    (input : DecisionReachedInput) : BatcherClientResult Unit :=
  handleDecisionReached (localSend srv (BatcherRequest.DecisionReached input))

/-- Remote client build_proposal (`communication.rs`, remote impl): the
fallible send's failure is returned at once as the transport variant of the
unified error; only a delivered response is handled further. -/
def RemoteBatcherClientImpl.build_proposal (srv : BatcherBehavior)
    (tr : RemoteTransport) (input : BuildProposalInput) : BatcherClientResult Unit :=
  match remoteSend srv tr (BatcherRequest.BuildProposal input) with
  | .error e => .error (BatcherClientError.ClientError e)
  | .ok response => handleBuildProposal response

/-- Remote client get_stream_content (`communication.rs`, remote impl). -/
def RemoteBatcherClientImpl.get_stream_content (srv : BatcherBehavior)
    (tr : RemoteTransport) (input : GetStreamContentInput) :
    BatcherClientResult StreamContent :=
  match remoteSend srv tr (BatcherRequest.GetStreamContent input) with
  | .error e => .error (BatcherClientError.ClientError e)
  | .ok response => handleGetStreamContent response

/-- Remote client decision_reached (`communication.rs`, remote impl). -/
def RemoteBatcherClientImpl.decision_reached (srv : BatcherBehavior)
    (tr : RemoteTransport) (input : DecisionReachedInput) : BatcherClientResult Unit :=
  match remoteSend srv tr (BatcherRequest.DecisionReached input) with
  | .error e => .error (BatcherClientError.ClientError e)
  | .ok response => handleDecisionReached response

/-- Concrete call tree mirroring the test helper `call_info_with_x_events`:
`nev` own empty events and `ninner` single-event childless children. -/
def callInfoWithXEvents (nev ninner : Nat) : CallInfo :=
  CallInfo.mk (some 1) 0 (List.replicate nev ⟨0, [], []⟩) [] []
    (List.replicate ninner (CallInfo.mk (some 1) 0 [⟨0, [], []⟩] [] [] []))

/-- The concrete scenario of the spec: validate tree with 2 root events and
no children, execute tree with 1 root event and 2 single-event children,
fee-transfer tree with 1 event and no children. -/
def teiScenario : TransactionExecutionInfo :=
  ⟨some (callInfoWithXEvents 2 0), some (callInfoWithXEvents 1 2),
    some (callInfoWithXEvents 1 0), 0⟩

/-- Deeply nested fixture: the innermost call record, carrying an event with
one key and two data cells, one message with a three-cell payload, a storage
key and a class hash. -/
def deepChild : CallInfo :=
  CallInfo.mk (some 7) 4 [⟨0, [5], [6, 6]⟩] [⟨0, ⟨9, [1, 2, 3]⟩⟩] [8] []

/-- Deeply nested fixture: a middle call record without a class hash. -/
def midCall : CallInfo := CallInfo.mk none 3 [] [] [] [deepChild]

/-- Deeply nested fixture: the root of the execute tree. -/
def deepRoot : CallInfo := CallInfo.mk (some 2) 1 [] [] [] [midCall]

/-- Transaction execution info whose execute tree nests `deepChild` two
levels down; validate and fee-transfer trees are absent. -/
def teiDeep : TransactionExecutionInfo := ⟨none, some deepRoot, none, 0⟩

/-- Concrete batcher behaviour used in closed-form checks: build-proposal
reports a domain error, the other operations succeed. -/
def srvFix : BatcherBehavior :=
  { build_proposal := fun _ => .error (.internal 3)
    get_stream_content := fun i => .ok ⟨i.stream_id + 1⟩
    decision_reached := fun _ => .ok () }

/-- Concrete transport failing with a timeout on build-proposal requests and
delivering everything else. -/
def trFix : RemoteTransport :=
  { outcome := fun r =>
      match r with
      | .BuildProposal _ => some .timeout
      | _ => none }

/-- A client result is a success, or carries the transport kind, or carries
the domain kind of the unified error. -/
def resultTwoKinds {α : Type} (r : BatcherClientResult α) : Prop :=
  (∃ v, r = .ok v) ∨ (∃ c, r = .error (BatcherClientError.ClientError c)) ∨
    (∃ b, r = .error (BatcherClientError.BatcherError b))

theorem accumulate_nil (acc : ExecutionSummary) : accumulate acc [] = acc := by
  simp [accumulate, classHashesOf, storageEntriesOf, payloadLengthsOf, nEventsOf,
    totalKeysOf, totalDataOf]

theorem accumulate_append (acc : ExecutionSummary) (ns1 ns2 : List CallInfo) :
    accumulate (accumulate acc ns1) ns2 = accumulate acc (ns1 ++ ns2) := by
  simp [accumulate, classHashesOf, storageEntriesOf, payloadLengthsOf, nEventsOf,
    totalKeysOf, totalDataOf, List.filterMap_append, List.flatMap_append,
    List.sum_append, List.toFinset_append, Finset.union_assoc, Nat.add_assoc]

theorem foldl_insert_toFinset (sa : Nat) (keys : List Nat) (V : Finset (Nat × Nat)) :
    keys.foldl (fun s k => insert (sa, k) s) V =
      V ∪ (keys.map (fun k => (sa, k))).toFinset := by
  induction keys generalizing V with
  | nil => simp
  | cons k rest ih => simp [ih, Finset.union_insert, Finset.insert_union]

theorem step_none_eq_accumulate_single (acc : ExecutionSummary) (sa : Nat)
    (evs : List OrderedEvent) (msgs : List OrderedL2ToL1Message) (keys : List Nat)
    (inner : List CallInfo) :
    ({ executed_class_hashes := acc.executed_class_hashes
       visited_storage_entries :=
          keys.foldl (fun s k => insert (sa, k) s) acc.visited_storage_entries
       l2_to_l1_payload_lengths :=
          acc.l2_to_l1_payload_lengths ++ msgs.map (fun m => m.message.payload.length)
       event_summary :=
          { n_events := acc.event_summary.n_events + evs.length
            total_event_keys :=
              acc.event_summary.total_event_keys + (evs.map (fun e => e.keys.length)).sum
            total_event_data_size :=
              acc.event_summary.total_event_data_size + (evs.map (fun e => e.data.length)).sum } }
      : ExecutionSummary) =
      accumulate acc [CallInfo.mk none sa evs msgs keys inner] := by
  simp [accumulate, classHashesOf, storageEntriesOf, payloadLengthsOf, nEventsOf,
    totalKeysOf, totalDataOf, CallInfo.class_hash, CallInfo.storage_address,
    CallInfo.events, CallInfo.l2_to_l1_messages, CallInfo.accessed_storage_keys,
    foldl_insert_toFinset]

theorem step_some_eq_accumulate_single (acc : ExecutionSummary) (h : Nat) (sa : Nat)
    (evs : List OrderedEvent) (msgs : List OrderedL2ToL1Message) (keys : List Nat)
    (inner : List CallInfo) :
    ({ executed_class_hashes := insert h acc.executed_class_hashes
       visited_storage_entries :=
          keys.foldl (fun s k => insert (sa, k) s) acc.visited_storage_entries
       l2_to_l1_payload_lengths :=
          acc.l2_to_l1_payload_lengths ++ msgs.map (fun m => m.message.payload.length)
       event_summary :=
          { n_events := acc.event_summary.n_events + evs.length
            total_event_keys :=
              acc.event_summary.total_event_keys + (evs.map (fun e => e.keys.length)).sum
            total_event_data_size :=
              acc.event_summary.total_event_data_size + (evs.map (fun e => e.data.length)).sum } }
      : ExecutionSummary) =
      accumulate acc [CallInfo.mk (some h) sa evs msgs keys inner] := by
  rw [foldl_insert_toFinset]
  simp [accumulate, classHashesOf, storageEntriesOf, payloadLengthsOf, nEventsOf,
    totalKeysOf, totalDataOf, CallInfo.class_hash, CallInfo.storage_address,
    CallInfo.events, CallInfo.l2_to_l1_messages, CallInfo.accessed_storage_keys,
    Finset.insert_eq, Finset.union_comm, Finset.union_assoc, Finset.union_left_comm]

mutual

theorem summarizeCall_eq_accumulate (acc : ExecutionSummary) (c : CallInfo) :
    summarizeCall acc c = accumulate acc c.allNodes := by
  match c with
  | .mk ch sa evs msgs keys inner =>
    cases ch with
    | none =>
      rw [summarizeCall.eq_2, summarizeCalls_eq_accumulate, step_none_eq_accumulate_single,
        accumulate_append, CallInfo.allNodes.eq_1, List.singleton_append]
    | some h =>
      rw [summarizeCall.eq_1, summarizeCalls_eq_accumulate, step_some_eq_accumulate_single,
        accumulate_append, CallInfo.allNodes.eq_1, List.singleton_append]

theorem summarizeCalls_eq_accumulate (acc : ExecutionSummary) (cs : List CallInfo) :
    summarizeCalls acc cs = accumulate acc (allNodesList cs) := by
  match cs with
  | [] => rw [summarizeCalls.eq_1, allNodesList.eq_1, accumulate_nil]
  | c :: rest =>
    rw [summarizeCalls.eq_2, summarizeCalls_eq_accumulate, summarizeCall_eq_accumulate,
      accumulate_append, allNodesList.eq_2]

end

theorem summarize_eq_accumulate (t : TransactionExecutionInfo) :
    t.summarize = accumulate ExecutionSummary.empty t.allNodes := by
  rw [TransactionExecutionInfo.summarize, summarizeCalls_eq_accumulate]
  congr 1
  cases t with
  | mk v e f m =>
    cases v <;> cases e <;> cases f <;>
      simp [TransactionExecutionInfo.non_optional_call_infos,
        TransactionExecutionInfo.allNodes, optNodes, allNodesList]

theorem summarize_executed (t : TransactionExecutionInfo) :
    t.summarize.executed_class_hashes = (classHashesOf t.allNodes).toFinset := by
  rw [summarize_eq_accumulate]
  simp [accumulate, ExecutionSummary.empty]

theorem summarize_visited (t : TransactionExecutionInfo) :
    t.summarize.visited_storage_entries = (storageEntriesOf t.allNodes).toFinset := by
  rw [summarize_eq_accumulate]
  simp [accumulate, ExecutionSummary.empty]

theorem summarize_payloads (t : TransactionExecutionInfo) :
    t.summarize.l2_to_l1_payload_lengths = payloadLengthsOf t.allNodes := by
  rw [summarize_eq_accumulate]
  simp [accumulate, ExecutionSummary.empty]

theorem summarize_n_events (t : TransactionExecutionInfo) :
    t.summarize.event_summary.n_events = nEventsOf t.allNodes := by
  rw [summarize_eq_accumulate]
  simp [accumulate, ExecutionSummary.empty]

theorem summarize_total_keys (t : TransactionExecutionInfo) :
    t.summarize.event_summary.total_event_keys = totalKeysOf t.allNodes := by
  rw [summarize_eq_accumulate]
  simp [accumulate, ExecutionSummary.empty]

theorem summarize_total_data (t : TransactionExecutionInfo) :
    t.summarize.event_summary.total_event_data_size = totalDataOf t.allNodes := by
  rw [summarize_eq_accumulate]
  simp [accumulate, ExecutionSummary.empty]

/-- C1: for every transaction execution info, `l2_to_l1_payload_lengths` is
the undeduplicated concatenation of the per-tree message payload lengths in
the fixed traversal order — validate tree, then execute tree, then
fee-transfer tree, within a tree depth-first pre-order with a node's own
messages before those of its `inner_calls`, children in listed order — and
its length is the total outbound-message count over all three trees. -/
theorem payload_lengths_traversal_order (t : TransactionExecutionInfo) :
    t.summarize.l2_to_l1_payload_lengths =
      payloadLengthsOf (optNodes t.validate_call_info) ++
        payloadLengthsOf (optNodes t.execute_call_info) ++
          payloadLengthsOf (optNodes t.fee_transfer_call_info) ∧
    t.summarize.l2_to_l1_payload_lengths.length = nMessagesOf t.allNodes := by
  constructor
  · rw [summarize_payloads, TransactionExecutionInfo.allNodes]
    simp [payloadLengthsOf, List.flatMap_append]
  · rw [summarize_payloads]
    simp [payloadLengthsOf, nMessagesOf, List.length_flatMap, Function.comp_def,
      List.length_map]

/-- C2: `executed_class_hashes` and `visited_storage_entries` are
duplicate-free, and membership is exactly the class hashes and
`(storage_address, storage_key)` pairs occurring on nodes of the three
trees. -/
theorem dedup_sets_membership (t : TransactionExecutionInfo) :
    t.summarize.executed_class_hashes.val.Nodup ∧
    t.summarize.visited_storage_entries.val.Nodup ∧
    (∀ h : Nat, h ∈ t.summarize.executed_class_hashes ↔ h ∈ classHashesOf t.allNodes) ∧
    (∀ p : Nat × Nat,
        p ∈ t.summarize.visited_storage_entries ↔ p ∈ storageEntriesOf t.allNodes) := by
  refine ⟨Finset.nodup _, Finset.nodup _, ?_, ?_⟩
  · intro h
    rw [summarize_executed]
    exact List.mem_toFinset
  · intro p
    rw [summarize_visited]
    exact List.mem_toFinset

/-- C3: `event_summary.n_events` equals the sum over every node of the three
trees of that node's own event count; in the concrete scenario — validate
tree with 2 root events and no children, execute tree with 1 root event and
2 single-event children, fee-transfer tree with 1 event and no children —
it equals 6. -/
theorem n_events_additive :
    (∀ t : TransactionExecutionInfo,
        t.summarize.event_summary.n_events = nEventsOf t.allNodes) ∧
    teiScenario.summarize.event_summary.n_events = 6 := by
  refine ⟨summarize_n_events, ?_⟩
  decide

/-- C4: every node at any nesting depth of any of the three trees has its
class hash (when present) in the executed set, each of its
`(storage_address, key)` pairs in the visited set, its own events counted in
`n_events`, and its own messages' payload lengths included, in order, in the
payload-length sequence. -/
theorem recursive_inclusion (t : TransactionExecutionInfo) (c : CallInfo)
    (hc : c ∈ t.allNodes) :
    (∀ h, c.class_hash = some h → h ∈ t.summarize.executed_class_hashes) ∧
    (∀ k, k ∈ c.accessed_storage_keys →
        (c.storage_address, k) ∈ t.summarize.visited_storage_entries) ∧
    c.events.length ≤ t.summarize.event_summary.n_events ∧
    (c.l2_to_l1_messages.map (fun m => m.message.payload.length)).Sublist
      t.summarize.l2_to_l1_payload_lengths := by
  refine ⟨?_, ?_, ?_, ?_⟩
  · intro h hh
    rw [summarize_executed, List.mem_toFinset, classHashesOf]
    exact List.mem_filterMap.mpr ⟨c, hc, hh⟩
  · intro k hk
    rw [summarize_visited, List.mem_toFinset, storageEntriesOf]
    exact List.mem_flatMap.mpr ⟨c, hc, List.mem_map.mpr ⟨k, hk, rfl⟩⟩
  · rw [summarize_n_events, nEventsOf]
    exact List.single_le_sum (fun x _ => Nat.zero_le x) _
      (List.mem_map_of_mem _ hc)
  · rw [summarize_payloads]
    obtain ⟨s, s2, hst⟩ := List.append_of_mem hc
    rw [hst, payloadLengthsOf, List.flatMap_append, List.flatMap_cons]
    exact (List.sublist_append_left _ _).trans (List.sublist_append_right _ _)

/-- Closed instance of C4 at the two-level-deep fixture node. -/
theorem recursive_inclusion_witness :
    deepChild ∈ teiDeep.allNodes ∧
    7 ∈ teiDeep.summarize.executed_class_hashes ∧
    (4, 8) ∈ teiDeep.summarize.visited_storage_entries ∧
    1 ≤ teiDeep.summarize.event_summary.n_events ∧
    List.Sublist [3] teiDeep.summarize.l2_to_l1_payload_lengths := by
  have hmem : deepChild ∈ teiDeep.allNodes := by
    simp [teiDeep, TransactionExecutionInfo.allNodes, optNodes, deepRoot, midCall,
      deepChild, CallInfo.allNodes, allNodesList]
  have h := recursive_inclusion teiDeep deepChild hmem
  refine ⟨hmem, h.1 7 rfl, h.2.1 8 (by simp [deepChild, CallInfo.accessed_storage_keys]),
    ?_, ?_⟩
  · simpa [deepChild, CallInfo.events] using h.2.2.1
  · simpa [deepChild, CallInfo.l2_to_l1_messages] using h.2.2.2

/-- C5: an absent tree contributes nothing to any aggregate — the summary is
the fold of the three per-tree node lists in order, an absent tree has no
nodes, and accumulating an empty node list changes nothing — and with all
three trees absent the summary is the empty one: zero counts, empty sets,
empty sequence. -/
theorem absent_trees_empty_summary :
    (∀ t : TransactionExecutionInfo,
        t.summarize =
          accumulate (accumulate (accumulate ExecutionSummary.empty
              (optNodes t.validate_call_info)) (optNodes t.execute_call_info))
            (optNodes t.fee_transfer_call_info)) ∧
    optNodes none = [] ∧
    (∀ acc, accumulate acc [] = acc) ∧
    (∀ m, (TransactionExecutionInfo.mk none none none m).summarize =
        ExecutionSummary.empty) := by
  refine ⟨?_, rfl, accumulate_nil, fun m => rfl⟩
  intro t
  rw [summarize_eq_accumulate, TransactionExecutionInfo.allNodes,
    accumulate_append, accumulate_append, List.append_assoc]

/-- C6: the per-node step inserts the node's class hash exactly when it is
present — a childless node with an absent class hash leaves the executed set
unchanged, one with a present hash inserts exactly it — and every member of
the executed set is the class hash of some node of the three trees. -/
theorem class_hash_insert_iff_present :
    (∀ acc sa evs msgs keys,
        (summarizeCall acc (CallInfo.mk none sa evs msgs keys [])).executed_class_hashes =
          acc.executed_class_hashes) ∧
    (∀ acc h sa evs msgs keys,
        (summarizeCall acc
            (CallInfo.mk (some h) sa evs msgs keys [])).executed_class_hashes =
          insert h acc.executed_class_hashes) ∧
    (∀ (t : TransactionExecutionInfo) (h : Nat),
        h ∈ t.summarize.executed_class_hashes →
        ∃ c, c ∈ t.allNodes ∧ c.class_hash = some h) := by
  refine ⟨fun acc sa evs msgs keys => rfl, fun acc h sa evs msgs keys => rfl, ?_⟩
  intro t h hmem
  rw [summarize_executed, List.mem_toFinset, classHashesOf] at hmem
  exact List.mem_filterMap.mp hmem

/-- Closed instance of the completeness direction of C6 at the deep fixture. -/
theorem class_hash_insert_iff_present_witness :
    ∃ c, c ∈ teiDeep.allNodes ∧ c.class_hash = some 7 :=
  class_hash_insert_iff_present.2.2 teiDeep 7 (by decide)

/-- C7: summarize is a pure function of the held trees — it is independent of
the transaction-level metadata, and modelling the call as state passing, the
call leaves the record unchanged and a second call yields an equal summary. -/
theorem summarize_pure_idempotent :
    (∀ v e f m m2, (TransactionExecutionInfo.mk v e f m).summarize =
        (TransactionExecutionInfo.mk v e f m2).summarize) ∧
    (∀ t : TransactionExecutionInfo,
        t.summarizeCalled.2 = t ∧
        (t.summarizeCalled.2.summarizeCalled).1 = t.summarizeCalled.1) :=
  ⟨fun _ _ _ _ _ => rfl, fun _ => ⟨rfl, rfl⟩⟩

/-- C8: `total_event_keys` and `total_event_data_size` are the sums over every
event of the three trees of its key count and data length; when every event
has empty keys and empty data both totals are zero while `n_events` still
counts each event. -/
theorem event_totals_additive :
    (∀ t : TransactionExecutionInfo,
        t.summarize.event_summary.total_event_keys = totalKeysOf t.allNodes ∧
        t.summarize.event_summary.total_event_data_size = totalDataOf t.allNodes) ∧
    (∀ t : TransactionExecutionInfo,
        (∀ c ∈ t.allNodes, ∀ ev ∈ c.events, ev.keys = [] ∧ ev.data = []) →
        t.summarize.event_summary.total_event_keys = 0 ∧
        t.summarize.event_summary.total_event_data_size = 0 ∧
        t.summarize.event_summary.n_events = nEventsOf t.allNodes) := by
  refine ⟨fun t => ⟨summarize_total_keys t, summarize_total_data t⟩, ?_⟩
  intro t hemp
  refine ⟨?_, ?_, summarize_n_events t⟩
  · rw [summarize_total_keys, totalKeysOf]
    apply List.sum_eq_zero
    intro x hx
    obtain ⟨c, hc, hxm⟩ := List.mem_flatMap.mp hx
    obtain ⟨ev, hev, hevx⟩ := List.mem_map.mp hxm
    rw [← hevx, (hemp c hc ev hev).1]
    rfl
  · rw [summarize_total_data, totalDataOf]
    apply List.sum_eq_zero
    intro x hx
    obtain ⟨c, hc, hxm⟩ := List.mem_flatMap.mp hx
    obtain ⟨ev, hev, hevx⟩ := List.mem_map.mp hxm
    rw [← hevx, (hemp c hc ev hev).2]
    rfl

/-- Closed instance of C8 at the concrete scenario, whose events all have
empty keys and data. -/
theorem event_totals_additive_witness :
    teiScenario.summarize.event_summary.total_event_keys = 0 ∧
    teiScenario.summarize.event_summary.total_event_data_size = 0 ∧
    teiScenario.summarize.event_summary.n_events = nEventsOf teiScenario.allNodes :=
  event_totals_additive.2 teiScenario (by decide)

theorem resultTwoKinds_total {α : Type} (r : BatcherClientResult α) : resultTwoKinds r := by
  match r with
  | .ok v => exact Or.inl ⟨v, rfl⟩
  | .error (.ClientError c) => exact Or.inr (Or.inl ⟨c, rfl⟩)
  | .error (.BatcherError b) => exact Or.inr (Or.inr ⟨b, rfl⟩)

/-- C9: every batcher client operation, local or remote, returns a result
whose error is one of exactly the two variants of the unified error —
transport-level `ClientError` or domain-level `BatcherError` — and the two
variants remain distinguishable in the returned value. -/
theorem batcher_error_two_kinds :
    (∀ e : BatcherClientError, (∃ c, e = BatcherClientError.ClientError c) ∨
        (∃ b, e = BatcherClientError.BatcherError b)) ∧
    (∀ c b, BatcherClientError.ClientError c ≠ BatcherClientError.BatcherError b) ∧
    (∀ srv i, resultTwoKinds (LocalBatcherClientImpl.build_proposal srv i)) ∧
    (∀ srv i, resultTwoKinds (LocalBatcherClientImpl.get_stream_content srv i)) ∧
    (∀ srv i, resultTwoKinds (LocalBatcherClientImpl.decision_reached srv i)) ∧
    (∀ srv tr i, resultTwoKinds (RemoteBatcherClientImpl.build_proposal srv tr i)) ∧
    (∀ srv tr i, resultTwoKinds (RemoteBatcherClientImpl.get_stream_content srv tr i)) ∧
    (∀ srv tr i, resultTwoKinds (RemoteBatcherClientImpl.decision_reached srv tr i)) := by
  refine ⟨?_, ?_, fun srv i => resultTwoKinds_total _, fun srv i => resultTwoKinds_total _,
    fun srv i => resultTwoKinds_total _, fun srv tr i => resultTwoKinds_total _,
    fun srv tr i => resultTwoKinds_total _, fun srv tr i => resultTwoKinds_total _⟩
  · intro e
    match e with
    | .ClientError c => exact Or.inl ⟨c, rfl⟩
    | .BatcherError b => exact Or.inr ⟨b, rfl⟩
  · intro c b hcb
    exact BatcherClientError.noConfusion hcb

/-- C10: the local client's send is infallible, so each local operation can
only succeed or fail with the domain variant extracted from the response,
while the remote client's send is fallible and a failed send is returned as
the transport variant before any response is inspected. -/
theorem local_domain_remote_transport :
    (∀ srv i, (∃ u, LocalBatcherClientImpl.build_proposal srv i = .ok u) ∨
        (∃ b, LocalBatcherClientImpl.build_proposal srv i =
            .error (BatcherClientError.BatcherError b))) ∧
    (∀ srv i, (∃ v, LocalBatcherClientImpl.get_stream_content srv i = .ok v) ∨
        (∃ b, LocalBatcherClientImpl.get_stream_content srv i =
            .error (BatcherClientError.BatcherError b))) ∧
    (∀ srv i, (∃ u, LocalBatcherClientImpl.decision_reached srv i = .ok u) ∨
        (∃ b, LocalBatcherClientImpl.decision_reached srv i =
            .error (BatcherClientError.BatcherError b))) ∧
    (∀ srv tr i c, tr.outcome (BatcherRequest.BuildProposal i) = some c →
        RemoteBatcherClientImpl.build_proposal srv tr i =
          .error (BatcherClientError.ClientError c)) ∧
    (∀ srv tr i c, tr.outcome (BatcherRequest.GetStreamContent i) = some c →
        RemoteBatcherClientImpl.get_stream_content srv tr i =
          .error (BatcherClientError.ClientError c)) ∧
    (∀ srv tr i c, tr.outcome (BatcherRequest.DecisionReached i) = some c →
        RemoteBatcherClientImpl.decision_reached srv tr i =
          .error (BatcherClientError.ClientError c)) := by
  refine ⟨?_, ?_, ?_, ?_, ?_, ?_⟩
  · intro srv i
    cases h : srv.build_proposal i with
    | ok u =>
      exact Or.inl ⟨u, by
        simp [LocalBatcherClientImpl.build_proposal, localSend, handleBuildProposal, h]⟩
    | error b =>
      exact Or.inr ⟨b, by
        simp [LocalBatcherClientImpl.build_proposal, localSend, handleBuildProposal, h]⟩
  · intro srv i
    cases h : srv.get_stream_content i with
    | ok v =>
      exact Or.inl ⟨v, by
        simp [LocalBatcherClientImpl.get_stream_content, localSend,
          handleGetStreamContent, h]⟩
    | error b =>
      exact Or.inr ⟨b, by
        simp [LocalBatcherClientImpl.get_stream_content, localSend,
          handleGetStreamContent, h]⟩
  · intro srv i
    cases h : srv.decision_reached i with
    | ok u =>
      exact Or.inl ⟨u, by
        simp [LocalBatcherClientImpl.decision_reached, localSend,
          handleDecisionReached, h]⟩
    | error b =>
      exact Or.inr ⟨b, by
        simp [LocalBatcherClientImpl.decision_reached, localSend,
          handleDecisionReached, h]⟩
  · intro srv tr i c hc
    simp [RemoteBatcherClientImpl.build_proposal, remoteSend, hc]
  · intro srv tr i c hc
    simp [RemoteBatcherClientImpl.get_stream_content, remoteSend, hc]
  · intro srv tr i c hc
    simp [RemoteBatcherClientImpl.decision_reached, remoteSend, hc]

/-- Closed instance of C10: the concrete transport drops build-proposal
requests, so the remote client reports the timeout as the transport variant,
while the local client surfaces the behaviour's own error as the domain
variant. -/
theorem local_domain_remote_transport_witness :
    RemoteBatcherClientImpl.build_proposal srvFix trFix ⟨5⟩ =
      .error (BatcherClientError.ClientError .timeout) :=
  local_domain_remote_transport.2.2.2.1 srvFix trFix ⟨5⟩ .timeout rfl

end Sequencer
